import Mathlib

/-!
Verification of the quantum-backend micropayment gateway
(`src/server/index.js`, `src/server/storage.js`, `src/server/verify.js`).

The JavaScript sources are shallowly embedded: the request handlers become
Lean functions over an explicit server state, JS numbers holding epoch
seconds become `Int`, the `usedNonces` `Map` becomes a partial function
`String → Option Int`, and the tweetnacl Ed25519 primitives are modelled
symbolically (a detached signature records the exact message and public key
it was created for, and verification checks both — the standard idealization
of an unforgeable signature scheme).
-/

namespace Quantum402

/-! # Definitions -/

/-! ## Decimal printing

`messageFromInvoice` / `messageFromReceipt` stringify the numeric `ts`
field via JavaScript's implicit number→string conversion, which for
integral values agrees with Lean's `toString : Int → String`.  The
mutation claims need that this printing is injective, which is proved
below from first principles about `Nat.toDigitsCore`. -/

/-- Value of a decimal digit character; any non-digit maps to 10. -/
def digitVal (c : Char) : Nat :=
  if c = '0' then 0 else if c = '1' then 1 else if c = '2' then 2
  else if c = '3' then 3 else if c = '4' then 4 else if c = '5' then 5
  else if c = '6' then 6 else if c = '7' then 7 else if c = '8' then 8
  else if c = '9' then 9 else 10

/-- Structural form of the decimal digit list of a natural number
(most significant digit first), mirroring what `Nat.toDigitsCore`
computes once its fuel suffices. -/
def digitsStr (n : Nat) : List Char :=
  if h : n / 10 = 0 then [Nat.digitChar (n % 10)]
  else
    have : n / 10 < n := Nat.div_lt_self (by omega) (by omega)
    digitsStr (n / 10) ++ [Nat.digitChar (n % 10)]

/-- Base-10 reading of a digit list, the left inverse of `digitsStr`. -/
def fromDigits (l : List Char) : Nat :=
  l.foldl (fun a c => a * 10 + digitVal c) 0

/-! ## Symbolic Ed25519 (crypto.js)

`signGateway` / `verifyGateway` wrap tweetnacl detached signatures.  We use
the standard symbolic idealization of an unforgeable scheme: a signature
value records the exact message string and the public key of the signer
(in tweetnacl the 64-byte secret key literally contains the public key, so
the keypair determines both); verification succeeds exactly when both
match.  Base64 encoding of keys and signatures is injective, so keys are
identified with their base64 strings. -/

/-- A detached gateway signature over `msg` by the holder of `key`. -/
structure Sig where
  msg : String
  key : String
deriving DecidableEq, Repr

/-- The gateway signing identity; `publicKey` is its base64-encoded public
key (`gatewayPubB64` in index.js).  The signing capability is modelled by
possession of the `Keypair` value itself. -/
structure Keypair where
  publicKey : String
deriving DecidableEq, Repr

/-- crypto.js `signGateway(msgStr, secretKey)`. -/
def signGateway (msgStr : String) (kp : Keypair) : Sig :=
  ⟨msgStr, kp.publicKey⟩

/-- crypto.js `verifyGateway(msgStr, sigB64, publicKeyU8)`. -/
def verifyGateway (msgStr : String) (sig : Sig) (publicKey : String) : Bool :=
  sig.msg == msgStr && sig.key == publicKey

/-! ## storage.js -/

/-- `usedNonces`: the `Map` from nonce to expiry (epoch seconds), modelled
extensionally as a partial function. -/
abbrev NonceLedger := String → Option Int

/-- storage.js `markNonce(nonce, expireAt)`: `usedNonces.set(nonce, expireAt)`. -/
def markNonce (m : NonceLedger) (nonce : String) (expireAt : Int) : NonceLedger :=
  fun k => if k = nonce then some expireAt else m k

/-- storage.js `seenNonce(nonce)`: `!!exp && exp >= Math.floor(Date.now()/1000)`.
The JS truthiness test `!!exp` is false when the stored expiry is the
number 0, so such an entry counts as unseen. -/
def seenNonce (m : NonceLedger) (now : Int) (nonce : String) : Bool :=
  match m nonce with
  | some exp => exp != 0 && decide (exp ≥ now)
  | none => false

/-- storage.js `cleanupNonces()`: deletes every entry with `exp < now`. -/
def cleanupNonces (m : NonceLedger) (now : Int) : NonceLedger :=
  fun k =>
    match m k with
    | some exp => if exp < now then none else some exp
    | none => none

/-! ## Data model (index.js request/response shapes) -/

/-- An invoice as built by `/api/invoice` or submitted to `/api/settle`;
`ts` and `ttl` are JS numbers holding epoch seconds, modelled as `Int`. -/
structure Invoice where
  feature : String
  amount : String
  unit : String
  ttl : Int
  nonce : String
  merkleId : String
  ts : Int
  wallet : String
deriving DecidableEq, Repr

/-- The `walletProof` field of a settle request.  The two signature fields
are optional because a caller may omit either. -/
structure WalletProof where
  kind : String
  account : String
  signatureBase64 : Option String
  signatureHex : Option String
deriving DecidableEq, Repr

/-- The receipt object built in `/api/settle`. -/
structure Receipt where
  feature : String
  amount : String
  unit : String
  ttl : Int
  nonce : String
  merkleId : String
  payer : String
  gatewayPubkey : String
  ts : Int
  sig : Sig
deriving DecidableEq, Repr

/-- storage.js `rememberReceipt(r)`:
`receipts.unshift(r); if (receipts.length > 500) receipts.pop();`. -/
def rememberReceipt (r : Receipt) (receipts : List Receipt) : List Receipt :=
  let l := r :: receipts
  if l.length > 500 then l.dropLast else l

/-! ## index.js helpers -/

/-- index.js `isFresh(ts, ttl)` = `(nowSec() - ts) <= ttl`, with the clock
reading passed explicitly. -/
def isFresh (now ts ttl : Int) : Bool :=
  decide ((now - ts) ≤ ttl)

/-- index.js `messageFromInvoice`: join of the six signed fields with `|`;
the numeric `ts` is stringified as JS does when joining. -/
def messageFromInvoice (inv : Invoice) : String :=
  String.intercalate "|"
    [inv.feature, inv.amount, inv.unit, inv.nonce, inv.merkleId, toString inv.ts]

/-- index.js `messageFromReceipt`: same join scheme, reading the receipt's
fields.  Note it reads exactly `feature, amount, unit, nonce, merkleId, ts`
— neither `payer` nor `gatewayPubkey` enters the message. -/
def messageFromReceipt (rcpt : Receipt) : String :=
  String.intercalate "|"
    [rcpt.feature, rcpt.amount, rcpt.unit, rcpt.nonce, rcpt.merkleId, toString rcpt.ts]

/-! ## The settle and verify routes -/

/-- The mutable server state owned by the settle service. -/
structure ServerState where
  usedNonces : NonceLedger
  receipts : List Receipt

/-- Outcome of `/api/settle`: the `error` string of the failure responses,
or the receipt of the success response. -/
inductive SettleResult where
  | missingBody
  | expired
  | replay
  | badWalletProof
  | success (receipt : Receipt)
deriving DecidableEq, Repr

/-- Response together with the post-request server state. -/
structure SettleOutput where
  result : SettleResult
  state : ServerState

/-- The `verified` computation of `/api/settle` (lines 72–88): dispatch on
`walletProof.kind`, unknown kinds leave `verified = false`.  The two
scheme verifiers are passed as functions of the message, the proof's
signature field and its account. -/
def walletVerified (verifySolana verifyEvm : String → Option String → String → Bool)
    (msg : String) (walletProof : WalletProof) : Bool :=
  if walletProof.kind == "solana" then
    verifySolana msg walletProof.signatureBase64 walletProof.account
  else if walletProof.kind == "evm" then
    verifyEvm msg walletProof.signatureHex walletProof.account
  else false

/-- `/api/settle` (index.js lines 64–112) as a state transformer.  `now` is
the request's `nowSec()` reading; `invoice?`/`walletProof?` are the two
fields of `req.body || {}`. -/
def settle (verifySolana verifyEvm : String → Option String → String → Bool)
    (kp : Keypair) (now : Int)
    (invoice? : Option Invoice) (walletProof? : Option WalletProof)
    (st : ServerState) : SettleOutput :=
  match invoice?, walletProof? with
  | some invoice, some walletProof =>
    if !(isFresh now invoice.ts invoice.ttl) then ⟨.expired, st⟩
    else if seenNonce st.usedNonces now invoice.nonce then ⟨.replay, st⟩
    else
      let msg := messageFromInvoice invoice
      if !(walletVerified verifySolana verifyEvm msg walletProof) then
        ⟨.badWalletProof, st⟩
      else
        let ledger :=
          cleanupNonces (markNonce st.usedNonces invoice.nonce (invoice.ts + invoice.ttl)) now
        let receipt0 : Receipt :=
          { feature := invoice.feature, amount := invoice.amount, unit := invoice.unit,
            ttl := invoice.ttl, nonce := invoice.nonce, merkleId := invoice.merkleId,
            payer := walletProof.account, gatewayPubkey := kp.publicKey,
            ts := invoice.ts, sig := ⟨"", ""⟩ }
        let receipt := { receipt0 with sig := signGateway (messageFromReceipt receipt0) kp }
        ⟨.success receipt, ⟨ledger, rememberReceipt receipt st.receipts⟩⟩
  | _, _ => ⟨.missingBody, st⟩

/-- The receipt `/api/settle` constructs on the success path, as an
explicit value (used to state what `settle` returns). -/
def settledReceipt (kp : Keypair) (invoice : Invoice) (walletProof : WalletProof) : Receipt :=
  let receipt0 : Receipt :=
    { feature := invoice.feature, amount := invoice.amount, unit := invoice.unit,
      ttl := invoice.ttl, nonce := invoice.nonce, merkleId := invoice.merkleId,
      payer := walletProof.account, gatewayPubkey := kp.publicKey,
      ts := invoice.ts, sig := ⟨"", ""⟩ }
  { receipt0 with sig := signGateway (messageFromReceipt receipt0) kp }

/-- Outcome of `/api/verify`. -/
inductive VerifyOutcome where
  | missingReceipt
  | expired
  | badSig
  | verified (replayProtected : Bool)
deriving DecidableEq, Repr

/-- `/api/verify` (index.js lines 116–135): freshness on the receipt's own
`ts`/`ttl`, then the gateway signature against the embedded
`gatewayPubkey`, then the advisory `replayProtected` flag. -/
def verifyReceipt (m : NonceLedger) (now : Int) (receipt? : Option Receipt) : VerifyOutcome :=
  match receipt? with
  | none => .missingReceipt
  | some receipt =>
    if !(isFresh now receipt.ts receipt.ttl) then .expired
    else if !(verifyGateway (messageFromReceipt receipt) receipt.sig receipt.gatewayPubkey) then
      .badSig
    else .verified (seenNonce m now receipt.nonce)

/-! ## verify.js: the two wallet-proof verifiers

A JS computation either returns a value or throws; we model the body of
each verifier in `Except Unit` and the surrounding `try`/`catch` as a
`match` on that body.  The external library operations (`bs58.decode`,
`Buffer.from(..., "base64")`, `nacl.sign.detached.verify`,
`ethers.verifyMessage`, `ethers.getBytes`, `String.prototype.toLowerCase`)
are parameters, each allowed to throw arbitrarily; a missing field is
`none` (calling `.toLowerCase()` on it, or decoding it, may throw). -/

/-- `s.toLowerCase()` where `s` may be `undefined`: throws on `undefined`. -/
def jsToLower (toLower : String → String) (s? : Option String) : Except Unit String :=
  match s? with
  | some s => .ok (toLower s)
  | none => .error ()

/-- verify.js `verifySolanaMessage({message, signatureBase64, account})`.
The whole body sits in a `try` whose `catch` returns `false`; the result
type `Except Unit Bool` records that the function itself could, a priori,
still throw — the totality theorem shows it never does. -/
def verifySolanaMessage
    (bs58Decode : Option String → Except Unit (List Nat))
    (base64Decode : Option String → Except Unit (List Nat))
    (naclVerify : List Nat → List Nat → List Nat → Except Unit Bool)
    (strBytes : String → List Nat)
    (message : String) (signatureBase64 : Option String) (account : Option String) :
    Except Unit Bool :=
  let body : Except Unit Bool := do
    let pub ← bs58Decode account
    let sig ← base64Decode signatureBase64
    naclVerify (strBytes message) sig pub
  match body with
  | .ok b => .ok b
  | .error _ => .ok false

/-- verify.js `verifyEvmMessage({message, signatureHex, account})`: first
recovery attempt over the prefixed string form inside a `try` with an
empty `catch` (so both a thrown error and a non-matching recovery fall
through), then a second attempt over the raw bytes whose `catch` returns
`false`. -/
def verifyEvmMessage
    (ethersVerifyMessage : String → Option String → Except Unit String)
    (getBytes : String → Except Unit (List Nat))
    (ethersVerifyMessageBytes : List Nat → Option String → Except Unit String)
    (toLower : String → String)
    (message : String) (signatureHex : Option String) (account : Option String) :
    Except Unit Bool :=
  let attempt1 : Except Unit Bool := do
    let recovered1 ← ethersVerifyMessage message signatureHex
    let acct ← jsToLower toLower account
    pure (toLower recovered1 == acct)
  match attempt1 with
  | .ok true => .ok true
  | _ =>
    let attempt2 : Except Unit Bool := do
      let bytes ← getBytes message
      let recovered2 ← ethersVerifyMessageBytes bytes signatureHex
      let acct ← jsToLower toLower account
      pure (toLower recovered2 == acct)
    match attempt2 with
    | .ok b => .ok b
    | .error _ => .ok false

/-! ## Concrete fixtures for witnesses and counterexamples -/

/-- A concrete gateway keypair. -/
def kpW : Keypair := ⟨"gatewayPubB64"⟩

/-- A concrete invoice (the spec's scenario: `api.translate`, 0.01 SOL,
ttl 90, issued at epoch second 1000). -/
def invW : Invoice :=
  { feature := "api.translate", amount := "0.01", unit := "SOL", ttl := 90,
    nonce := "nonce1", merkleId := "merkle1", ts := 1000, wallet := "phantom" }

/-- A concrete solana wallet proof. -/
def wpW : WalletProof :=
  { kind := "solana", account := "payerAccountB58",
    signatureBase64 := some "walletSigB64", signatureHex := none }

/-- The empty server state (fresh process). -/
def stW : ServerState := ⟨fun _ => none, []⟩

/-- A scheme verifier that accepts every proof. -/
def acceptAll : String → Option String → String → Bool := fun _ _ _ => true

/-- A scheme verifier that rejects every proof. -/
def rejectAll : String → Option String → String → Bool := fun _ _ _ => false

/-- The receipt the fixture settlement produces. -/
def rW : Receipt := settledReceipt kpW invW wpW

/-- A server state in which the fixture invoice's nonce is already
recorded (expiry 1090 = invW.ts + invW.ttl). -/
def stSeenW : ServerState := ⟨fun k => if k = "nonce1" then some 1090 else none, []⟩

/-! # Supporting lemmas -/

/-! ## Injectivity of decimal printing -/

theorem digitVal_digitChar (d : Nat) (h : d < 10) :
    digitVal (Nat.digitChar d) = d := by
  interval_cases d <;> decide

theorem toDigitsCore_acc (b : Nat) :
    ∀ (fuel n : Nat) (ds : List Char),
      Nat.toDigitsCore b fuel n ds = Nat.toDigitsCore b fuel n [] ++ ds := by
  intro fuel
  induction fuel with
  | zero => intro n ds; simp [Nat.toDigitsCore]
  | succ f ih =>
    intro n ds
    simp only [Nat.toDigitsCore]
    by_cases h : n / b = 0
    · simp [h]
    · simp only [h, if_false]
      rw [ih (n / b) (Nat.digitChar (n % b) :: ds),
          ih (n / b) [Nat.digitChar (n % b)], List.append_assoc]
      rfl

theorem toDigitsCore_eq_digitsStr :
    ∀ (fuel n : Nat), n < fuel → Nat.toDigitsCore 10 fuel n [] = digitsStr n := by
  intro fuel
  induction fuel with
  | zero => intro n h; omega
  | succ f ih =>
    intro n h
    rw [digitsStr]
    simp only [Nat.toDigitsCore]
    by_cases h10 : n / 10 = 0
    · simp [h10]
    · rw [if_neg h10, dif_neg h10, toDigitsCore_acc, ih (n / 10) (by omega)]

theorem toDigits_eq_digitsStr (n : Nat) : Nat.toDigits 10 n = digitsStr n :=
  toDigitsCore_eq_digitsStr (n + 1) n (Nat.lt_succ_self n)

theorem fromDigits_digitsStr : ∀ n : Nat, fromDigits (digitsStr n) = n := by
  intro n
  induction n using Nat.strong_induction_on with
  | _ n ih =>
    rw [digitsStr]
    by_cases h : n / 10 = 0
    · have hn : n < 10 := by omega
      rw [dif_pos h]
      simp [fromDigits, Nat.mod_eq_of_lt hn]
      exact digitVal_digitChar n hn
    · have hlt : n / 10 < n := Nat.div_lt_self (by omega) (by omega)
      simp only [dif_neg h, fromDigits, List.foldl_append, List.foldl_cons,
        List.foldl_nil]
      have := ih (n / 10) hlt
      simp only [fromDigits] at this
      rw [this, digitVal_digitChar (n % 10) (Nat.mod_lt n (by omega))]
      omega

theorem digitsStr_digitVal_lt : ∀ (n : Nat), ∀ c ∈ digitsStr n, digitVal c < 10 := by
  intro n
  induction n using Nat.strong_induction_on with
  | _ n ih =>
    rw [digitsStr]
    by_cases h : n / 10 = 0
    · simp only [dif_pos h, List.mem_singleton]
      rintro c rfl
      rw [digitVal_digitChar (n % 10) (Nat.mod_lt n (by omega))]
      exact Nat.mod_lt n (by omega)
    · have hlt : n / 10 < n := Nat.div_lt_self (by omega) (by omega)
      simp only [dif_neg h, List.mem_append, List.mem_singleton]
      rintro c (hc | rfl)
      · exact ih (n / 10) hlt c hc
      · rw [digitVal_digitChar (n % 10) (Nat.mod_lt n (by omega))]
        exact Nat.mod_lt n (by omega)

theorem natRepr_injective {m n : Nat} (h : Nat.repr m = Nat.repr n) : m = n := by
  have hd : Nat.toDigits 10 m = Nat.toDigits 10 n := congrArg String.data h
  rw [toDigits_eq_digitsStr, toDigits_eq_digitsStr] at hd
  rw [← fromDigits_digitsStr m, ← fromDigits_digitsStr n, hd]

theorem dash_not_mem_digitsStr (n : Nat) : '-' ∉ digitsStr n := by
  intro hmem
  have := digitsStr_digitVal_lt n '-' hmem
  simp [digitVal] at this

theorem intToString_injective {i j : Int} (h : toString i = toString j) : i = j := by
  have hrepr : ∀ k : Int, toString k =
      match k with
      | .ofNat m => Nat.repr m
      | .negSucc m => "-" ++ Nat.repr (m + 1) := fun k => by cases k <;> rfl
  rw [hrepr i, hrepr j] at h
  cases i with
  | ofNat m =>
    cases j with
    | ofNat n => exact congrArg Int.ofNat (natRepr_injective h)
    | negSucc n =>
      exfalso
      have hd : (Nat.repr m).data = ('-' :: (Nat.repr (n + 1)).data) :=
        congrArg String.data h
      have : '-' ∈ (Nat.repr m).data := by rw [hd]; exact List.mem_cons_self _ _
      rw [show (Nat.repr m).data = digitsStr m from toDigits_eq_digitsStr m] at this
      exact dash_not_mem_digitsStr m this
  | negSucc m =>
    cases j with
    | ofNat n =>
      exfalso
      have hd : ('-' :: (Nat.repr (m + 1)).data) = (Nat.repr n).data :=
        congrArg String.data h
      have : '-' ∈ (Nat.repr n).data := by rw [← hd]; exact List.mem_cons_self _ _
      rw [show (Nat.repr n).data = digitsStr n from toDigits_eq_digitsStr n] at this
      exact dash_not_mem_digitsStr n this
    | negSucc n =>
      have hd : ('-' :: (Nat.repr (m + 1)).data) = ('-' :: (Nat.repr (n + 1)).data) :=
        congrArg String.data h
      have : Nat.repr (m + 1) = Nat.repr (n + 1) :=
        String.ext (List.cons_injective hd)
      have := natRepr_injective this
      exact congrArg Int.negSucc (by omega)

/-! ## Canonical-message injectivity

`String.intercalate "|" [f, a, u, n, m, t]` unfolds definitionally to the
left-associated append chain; the following lemmas cancel the fixed prefix
and suffix to recover one coordinate when the other five are unchanged. -/

theorem join6_feature_inj {f f' a u n m t : String}
    (h : f' ++ "|" ++ a ++ "|" ++ u ++ "|" ++ n ++ "|" ++ m ++ "|" ++ t
       = f ++ "|" ++ a ++ "|" ++ u ++ "|" ++ n ++ "|" ++ m ++ "|" ++ t) : f' = f := by
  have hd := congrArg String.data h
  simp only [String.data_append, List.append_assoc] at hd
  exact String.ext (List.append_cancel_right hd)

theorem join6_amount_inj {f a a' u n m t : String}
    (h : f ++ "|" ++ a' ++ "|" ++ u ++ "|" ++ n ++ "|" ++ m ++ "|" ++ t
       = f ++ "|" ++ a ++ "|" ++ u ++ "|" ++ n ++ "|" ++ m ++ "|" ++ t) : a' = a := by
  have hd := congrArg String.data h
  simp only [String.data_append, List.append_assoc] at hd
  exact String.ext
    (List.append_cancel_right (List.append_cancel_left (List.append_cancel_left hd)))

theorem join6_nonce_inj {f a u n n' m t : String}
    (h : f ++ "|" ++ a ++ "|" ++ u ++ "|" ++ n' ++ "|" ++ m ++ "|" ++ t
       = f ++ "|" ++ a ++ "|" ++ u ++ "|" ++ n ++ "|" ++ m ++ "|" ++ t) : n' = n := by
  have hd := congrArg String.data h
  simp only [String.data_append, List.append_assoc] at hd
  exact String.ext
    (List.append_cancel_right (List.append_cancel_left (List.append_cancel_left
      (List.append_cancel_left (List.append_cancel_left (List.append_cancel_left
        (List.append_cancel_left hd)))))))

theorem join6_ts_inj {f a u n m t t' : String}
    (h : f ++ "|" ++ a ++ "|" ++ u ++ "|" ++ n ++ "|" ++ m ++ "|" ++ t'
       = f ++ "|" ++ a ++ "|" ++ u ++ "|" ++ n ++ "|" ++ m ++ "|" ++ t) : t' = t := by
  have hd := congrArg String.data h
  simp only [String.data_append, List.append_assoc] at hd
  exact String.ext
    (List.append_cancel_left (List.append_cancel_left (List.append_cancel_left
      (List.append_cancel_left (List.append_cancel_left (List.append_cancel_left
        (List.append_cancel_left (List.append_cancel_left (List.append_cancel_left
          (List.append_cancel_left hd))))))))))

/-! ## Characterization of the settle route -/

theorem settle_none_invoice (verifySolana verifyEvm : String → Option String → String → Bool)
    (kp : Keypair) (now : Int) (walletProof? : Option WalletProof) (st : ServerState) :
    settle verifySolana verifyEvm kp now none walletProof? st = ⟨.missingBody, st⟩ := by
  cases walletProof? <;> rfl

theorem settle_none_proof (verifySolana verifyEvm : String → Option String → String → Bool)
    (kp : Keypair) (now : Int) (invoice? : Option Invoice) (st : ServerState) :
    settle verifySolana verifyEvm kp now invoice? none st = ⟨.missingBody, st⟩ := by
  cases invoice? <;> rfl

theorem settle_expired_eq (verifySolana verifyEvm : String → Option String → String → Bool)
    (kp : Keypair) (now : Int) (invoice : Invoice) (walletProof : WalletProof)
    (st : ServerState) (h : isFresh now invoice.ts invoice.ttl = false) :
    settle verifySolana verifyEvm kp now (some invoice) (some walletProof) st
      = ⟨.expired, st⟩ := by
  simp [settle, h]

theorem settle_replay_eq (verifySolana verifyEvm : String → Option String → String → Bool)
    (kp : Keypair) (now : Int) (invoice : Invoice) (walletProof : WalletProof)
    (st : ServerState) (h1 : isFresh now invoice.ts invoice.ttl = true)
    (h2 : seenNonce st.usedNonces now invoice.nonce = true) :
    settle verifySolana verifyEvm kp now (some invoice) (some walletProof) st
      = ⟨.replay, st⟩ := by
  simp [settle, h1, h2]

theorem settle_badProof_eq (verifySolana verifyEvm : String → Option String → String → Bool)
    (kp : Keypair) (now : Int) (invoice : Invoice) (walletProof : WalletProof)
    (st : ServerState) (h1 : isFresh now invoice.ts invoice.ttl = true)
    (h2 : seenNonce st.usedNonces now invoice.nonce = false)
    (h3 : walletVerified verifySolana verifyEvm (messageFromInvoice invoice) walletProof
            = false) :
    settle verifySolana verifyEvm kp now (some invoice) (some walletProof) st
      = ⟨.badWalletProof, st⟩ := by
  simp [settle, h1, h2, h3]

theorem settle_success_eq (verifySolana verifyEvm : String → Option String → String → Bool)
    (kp : Keypair) (now : Int) (invoice : Invoice) (walletProof : WalletProof)
    (st : ServerState) (h1 : isFresh now invoice.ts invoice.ttl = true)
    (h2 : seenNonce st.usedNonces now invoice.nonce = false)
    (h3 : walletVerified verifySolana verifyEvm (messageFromInvoice invoice) walletProof
            = true) :
    settle verifySolana verifyEvm kp now (some invoice) (some walletProof) st
      = ⟨.success (settledReceipt kp invoice walletProof),
         ⟨cleanupNonces (markNonce st.usedNonces invoice.nonce (invoice.ts + invoice.ttl)) now,
          rememberReceipt (settledReceipt kp invoice walletProof) st.receipts⟩⟩ := by
  simp [settle, h1, h2, h3, settledReceipt]

theorem settle_success_inv (verifySolana verifyEvm : String → Option String → String → Bool)
    (kp : Keypair) (now : Int) (invoice : Invoice) (walletProof : WalletProof)
    (st : ServerState) (r : Receipt)
    (h : (settle verifySolana verifyEvm kp now (some invoice) (some walletProof) st).result
           = .success r) :
    isFresh now invoice.ts invoice.ttl = true ∧
    seenNonce st.usedNonces now invoice.nonce = false ∧
    walletVerified verifySolana verifyEvm (messageFromInvoice invoice) walletProof = true ∧
    r = settledReceipt kp invoice walletProof ∧
    (settle verifySolana verifyEvm kp now (some invoice) (some walletProof) st).state
      = ⟨cleanupNonces (markNonce st.usedNonces invoice.nonce (invoice.ts + invoice.ttl)) now,
         rememberReceipt (settledReceipt kp invoice walletProof) st.receipts⟩ := by
  cases h1 : isFresh now invoice.ts invoice.ttl with
  | false =>
    rw [settle_expired_eq verifySolana verifyEvm kp now invoice walletProof st h1] at h
    exact absurd h (by simp)
  | true =>
    cases h2 : seenNonce st.usedNonces now invoice.nonce with
    | true =>
      rw [settle_replay_eq verifySolana verifyEvm kp now invoice walletProof st h1 h2] at h
      exact absurd h (by simp)
    | false =>
      cases h3 : walletVerified verifySolana verifyEvm (messageFromInvoice invoice)
          walletProof with
      | false =>
        rw [settle_badProof_eq verifySolana verifyEvm kp now invoice walletProof st
              h1 h2 h3] at h
        exact absurd h (by simp)
      | true =>
        rw [settle_success_eq verifySolana verifyEvm kp now invoice walletProof st
              h1 h2 h3] at h ⊢
        refine ⟨rfl, rfl, rfl, ?_, rfl⟩
        cases h
        rfl

theorem ledger_after_mark_cleanup (m : NonceLedger) (nonce : String) (e now : Int)
    (h : ¬ e < now) : cleanupNonces (markNonce m nonce e) now nonce = some e := by
  simp [cleanupNonces, markNonce, h]

/-- Structural facts about the settled receipt: its fields copy the
invoice and the proof's account, its canonical message coincides with the
invoice's, and its signature is the gateway's over exactly that message. -/
theorem settledReceipt_spec (kp : Keypair) (invoice : Invoice) (walletProof : WalletProof) :
    (settledReceipt kp invoice walletProof).feature = invoice.feature ∧
    (settledReceipt kp invoice walletProof).amount = invoice.amount ∧
    (settledReceipt kp invoice walletProof).unit = invoice.unit ∧
    (settledReceipt kp invoice walletProof).ttl = invoice.ttl ∧
    (settledReceipt kp invoice walletProof).nonce = invoice.nonce ∧
    (settledReceipt kp invoice walletProof).merkleId = invoice.merkleId ∧
    (settledReceipt kp invoice walletProof).payer = walletProof.account ∧
    (settledReceipt kp invoice walletProof).gatewayPubkey = kp.publicKey ∧
    (settledReceipt kp invoice walletProof).ts = invoice.ts ∧
    messageFromReceipt (settledReceipt kp invoice walletProof) = messageFromInvoice invoice ∧
    (settledReceipt kp invoice walletProof).sig
      = ⟨messageFromInvoice invoice, kp.publicKey⟩ := by
  exact ⟨rfl, rfl, rfl, rfl, rfl, rfl, rfl, rfl, rfl, rfl, rfl⟩

theorem verifyReceipt_badSig (m : NonceLedger) (now : Int) (rcpt : Receipt)
    (hfresh : isFresh now rcpt.ts rcpt.ttl = true)
    (hvg : verifyGateway (messageFromReceipt rcpt) rcpt.sig rcpt.gatewayPubkey = false) :
    verifyReceipt m now (some rcpt) = .badSig := by
  simp [verifyReceipt, hfresh, hvg]

theorem verifyReceipt_ok (m : NonceLedger) (now : Int) (rcpt : Receipt)
    (hfresh : isFresh now rcpt.ts rcpt.ttl = true)
    (hvg : verifyGateway (messageFromReceipt rcpt) rcpt.sig rcpt.gatewayPubkey = true) :
    verifyReceipt m now (some rcpt) = .verified (seenNonce m now rcpt.nonce) := by
  simp [verifyReceipt, hfresh, hvg]

theorem verifyGateway_msg_ne (msgStr : String) (sig : Sig) (pk : String)
    (h : sig.msg ≠ msgStr) : verifyGateway msgStr sig pk = false := by
  simp [verifyGateway, h]

theorem verifyGateway_key_ne (msgStr : String) (sig : Sig) (pk : String)
    (h : sig.key ≠ pk) : verifyGateway msgStr sig pk = false := by
  simp [verifyGateway, h]

/-! # Claims -/

/-- C3: `settle` performs its checks in the fixed order missing-body,
expired, replay, bad-wallet-proof, each failure a hard rejection with that
error code; freshness and replay are decided before any
signature-verification work, so for a stale or replayed request the
verifiers are never invoked (the outcome is the same for every choice of
verifier pair). -/
theorem c3_settle_check_order
    (verifySolana verifyEvm verifySolana2 verifyEvm2 : String → Option String → String → Bool)
    (kp : Keypair) (now : Int) (st : ServerState) :
    (∀ walletProof?, settle verifySolana verifyEvm kp now none walletProof? st
        = ⟨.missingBody, st⟩) ∧
    (∀ invoice?, settle verifySolana verifyEvm kp now invoice? none st
        = ⟨.missingBody, st⟩) ∧
    (∀ invoice walletProof, isFresh now invoice.ts invoice.ttl = false →
        settle verifySolana verifyEvm kp now (some invoice) (some walletProof) st
          = ⟨.expired, st⟩) ∧
    (∀ invoice walletProof, isFresh now invoice.ts invoice.ttl = true →
        seenNonce st.usedNonces now invoice.nonce = true →
        settle verifySolana verifyEvm kp now (some invoice) (some walletProof) st
          = ⟨.replay, st⟩) ∧
    (∀ invoice walletProof, isFresh now invoice.ts invoice.ttl = true →
        seenNonce st.usedNonces now invoice.nonce = false →
        walletVerified verifySolana verifyEvm (messageFromInvoice invoice) walletProof
          = false →
        settle verifySolana verifyEvm kp now (some invoice) (some walletProof) st
          = ⟨.badWalletProof, st⟩) ∧
    (∀ invoice walletProof,
        (isFresh now invoice.ts invoice.ttl = false ∨
          seenNonce st.usedNonces now invoice.nonce = true) →
        settle verifySolana verifyEvm kp now (some invoice) (some walletProof) st
          = settle verifySolana2 verifyEvm2 kp now (some invoice) (some walletProof) st) := by
  refine ⟨fun walletProof? => settle_none_invoice _ _ _ _ walletProof? st,
          fun invoice? => settle_none_proof _ _ _ _ invoice? st,
          fun invoice walletProof h => settle_expired_eq _ _ _ _ _ _ _ h,
          fun invoice walletProof h1 h2 => settle_replay_eq _ _ _ _ _ _ _ h1 h2,
          fun invoice walletProof h1 h2 h3 => settle_badProof_eq _ _ _ _ _ _ _ h1 h2 h3,
          ?_⟩
  rintro invoice walletProof (h | h)
  · rw [settle_expired_eq _ _ _ _ _ _ _ h, settle_expired_eq _ _ _ _ _ _ _ h]
  · cases h1 : isFresh now invoice.ts invoice.ttl with
    | false => rw [settle_expired_eq _ _ _ _ _ _ _ h1, settle_expired_eq _ _ _ _ _ _ _ h1]
    | true => rw [settle_replay_eq _ _ _ _ _ _ _ h1 h, settle_replay_eq _ _ _ _ _ _ _ h1 h]

/-- C3 witness: the check order at concrete inputs — missing invoice,
stale invoice, replayed nonce (under accepting verifiers), and a rejected
proof on an otherwise valid request. -/
theorem c3_settle_check_order_witness :
    settle acceptAll acceptAll kpW 1000 none (some wpW) stW = ⟨.missingBody, stW⟩ ∧
    settle acceptAll acceptAll kpW 2000 (some invW) (some wpW) stW = ⟨.expired, stW⟩ ∧
    settle acceptAll acceptAll kpW 1000 (some invW) (some wpW) stSeenW
      = ⟨.replay, stSeenW⟩ ∧
    settle rejectAll rejectAll kpW 1000 (some invW) (some wpW) stW
      = ⟨.badWalletProof, stW⟩ ∧
    settle acceptAll acceptAll kpW 2000 (some invW) (some wpW) stW
      = settle rejectAll rejectAll kpW 2000 (some invW) (some wpW) stW :=
  ⟨(c3_settle_check_order acceptAll acceptAll rejectAll rejectAll kpW 1000 stW).1 (some wpW),
   (c3_settle_check_order acceptAll acceptAll rejectAll rejectAll kpW 2000 stW).2.2.1
      invW wpW (by decide),
   (c3_settle_check_order acceptAll acceptAll rejectAll rejectAll kpW 1000 stSeenW).2.2.2.1
      invW wpW (by decide) (by decide),
   (c3_settle_check_order rejectAll rejectAll acceptAll acceptAll kpW 1000 stW).2.2.2.2.1
      invW wpW (by decide) (by decide) (by decide),
   (c3_settle_check_order acceptAll acceptAll rejectAll rejectAll kpW 2000 stW).2.2.2.2.2
      invW wpW (Or.inl (by decide))⟩

/-- C5: settlement is atomic on failure — whenever `settle` does not
return a success, the nonce ledger and the receipt archive (the whole
server state) are exactly as before the call, and no receipt is returned. -/
theorem c5_failure_preserves_state
    (verifySolana verifyEvm : String → Option String → String → Bool)
    (kp : Keypair) (now : Int) (invoice? : Option Invoice)
    (walletProof? : Option WalletProof) (st : ServerState)
    (h : ∀ r, (settle verifySolana verifyEvm kp now invoice? walletProof? st).result
           ≠ .success r) :
    (settle verifySolana verifyEvm kp now invoice? walletProof? st).state = st := by
  cases invoice? with
  | none => rw [settle_none_invoice]
  | some invoice =>
    cases walletProof? with
    | none => rw [settle_none_proof]
    | some walletProof =>
      cases h1 : isFresh now invoice.ts invoice.ttl with
      | false => rw [settle_expired_eq _ _ _ _ _ _ _ h1]
      | true =>
        cases h2 : seenNonce st.usedNonces now invoice.nonce with
        | true => rw [settle_replay_eq _ _ _ _ _ _ _ h1 h2]
        | false =>
          cases h3 : walletVerified verifySolana verifyEvm (messageFromInvoice invoice)
              walletProof with
          | false => rw [settle_badProof_eq _ _ _ _ _ _ _ h1 h2 h3]
          | true =>
            exact absurd (by rw [settle_success_eq _ _ _ _ _ _ _ h1 h2 h3])
              (h (settledReceipt kp invoice walletProof))

/-- C5 witness: a stale request leaves the concrete state untouched. -/
theorem c5_failure_preserves_state_witness :
    (settle acceptAll acceptAll kpW 2000 (some invW) (some wpW) stW).state = stW :=
  c5_failure_preserves_state acceptAll acceptAll kpW 2000 (some invW) (some wpW) stW
    (fun _ hr => SettleResult.noConfusion hr)

/-- C6: for every invoice whose expiry window has elapsed
(`now - ts > ttl`), `settle` with both fields present fails with
`expired`, whatever the verifiers would say. -/
theorem c6_expired_wins
    (verifySolana verifyEvm : String → Option String → String → Bool)
    (kp : Keypair) (now : Int) (invoice : Invoice) (walletProof : WalletProof)
    (st : ServerState) (h : now - invoice.ts > invoice.ttl) :
    settle verifySolana verifyEvm kp now (some invoice) (some walletProof) st
      = ⟨.expired, st⟩ :=
  settle_expired_eq _ _ _ _ _ _ _ (by simp [isFresh]; omega)

/-- C6 witness: the fixture invoice (ts 1000, ttl 90) at time 2000, with
an accepting verifier. -/
theorem c6_expired_wins_witness :
    settle acceptAll acceptAll kpW 2000 (some invW) (some wpW) stW = ⟨.expired, stW⟩ :=
  c6_expired_wins acceptAll acceptAll kpW 2000 invW wpW stW (by decide)

/-- C2 counterexample: after a successful settlement at time 1000, a
second `settle` call with the identical invoice (ts 1000, ttl 90) and a
proof, made at time 2000, fails with `expired` — not with `replay` as the
claim states for every second call. -/
theorem c2_counterexample :
    (settle acceptAll acceptAll kpW 1000 (some invW) (some wpW) stW).result
        = .success rW ∧
    (settle acceptAll acceptAll kpW 2000 (some invW) (some wpW)
        (settle acceptAll acceptAll kpW 1000 (some invW) (some wpW) stW).state).result
        = .expired ∧
    SettleResult.expired ≠ SettleResult.replay :=
  ⟨rfl, rfl, by decide⟩

/-- C2 (amended): after a successful settlement of an invoice (with a
positive server clock), its nonce is recorded with expiry `ts + ttl`, and
a second `settle` call with the identical invoice and any proof fails —
with `replay` whenever the invoice is still fresh at the second call, with
`expired` otherwise; in no case is a second receipt issued for that
invoice. -/
theorem c2_exactly_once
    (verifySolana verifyEvm verifySolana2 verifyEvm2 : String → Option String → String → Bool)
    (kp : Keypair) (now1 now2 : Int) (invoice : Invoice)
    (walletProof walletProof2 : WalletProof) (st : ServerState) (r : Receipt)
    (hclock : 0 < now1)
    (hsucc : (settle verifySolana verifyEvm kp now1 (some invoice) (some walletProof) st).result
               = .success r) :
    ((settle verifySolana verifyEvm kp now1 (some invoice) (some walletProof) st).state.usedNonces
        invoice.nonce = some (invoice.ts + invoice.ttl)) ∧
    (isFresh now2 invoice.ts invoice.ttl = true →
      settle verifySolana2 verifyEvm2 kp now2 (some invoice) (some walletProof2)
          (settle verifySolana verifyEvm kp now1 (some invoice) (some walletProof) st).state
        = ⟨.replay,
           (settle verifySolana verifyEvm kp now1 (some invoice) (some walletProof) st).state⟩) ∧
    (isFresh now2 invoice.ts invoice.ttl = false →
      settle verifySolana2 verifyEvm2 kp now2 (some invoice) (some walletProof2)
          (settle verifySolana verifyEvm kp now1 (some invoice) (some walletProof) st).state
        = ⟨.expired,
           (settle verifySolana verifyEvm kp now1 (some invoice) (some walletProof) st).state⟩) ∧
    (∀ r2, (settle verifySolana2 verifyEvm2 kp now2 (some invoice) (some walletProof2)
          (settle verifySolana verifyEvm kp now1 (some invoice) (some walletProof) st).state).result
        ≠ .success r2) := by
  obtain ⟨h1, _, _, _, hstate⟩ := settle_success_inv _ _ _ _ _ _ _ _ hsucc
  have hfresh1 : now1 - invoice.ts ≤ invoice.ttl := by simpa [isFresh] using h1
  have hexp : ¬ invoice.ts + invoice.ttl < now1 := by omega
  have hlook : (settle verifySolana verifyEvm kp now1 (some invoice) (some walletProof)
      st).state.usedNonces invoice.nonce = some (invoice.ts + invoice.ttl) := by
    rw [hstate]
    exact ledger_after_mark_cleanup _ _ _ _ hexp
  have hseen2 : ∀ n2 : Int, n2 - invoice.ts ≤ invoice.ttl →
      seenNonce (settle verifySolana verifyEvm kp now1 (some invoice) (some walletProof)
        st).state.usedNonces n2 invoice.nonce = true := by
    intro n2 hn2
    simp only [seenNonce, hlook, Bool.and_eq_true, bne_iff_ne, ne_eq, decide_eq_true_eq]
    constructor
    · omega
    · omega
  refine ⟨hlook, ?_, ?_, ?_⟩
  · intro hf2
    exact settle_replay_eq _ _ _ _ _ _ _ hf2
      (hseen2 now2 (by simpa [isFresh] using hf2))
  · intro hf2
    exact settle_expired_eq _ _ _ _ _ _ _ hf2
  · intro r2
    cases hf2 : isFresh now2 invoice.ts invoice.ttl with
    | true =>
      rw [settle_replay_eq _ _ _ _ _ _ _ hf2 (hseen2 now2 (by simpa [isFresh] using hf2))]
      simp
    | false =>
      rw [settle_expired_eq _ _ _ _ _ _ _ hf2]
      simp

/-- C2 witness: immediate resubmission of the fixture settlement at the
same clock second is rejected with `replay`. -/
theorem c2_exactly_once_witness :
    (0 : Int) < 1000 ∧
    (settle acceptAll acceptAll kpW 1000 (some invW) (some wpW) stW).result = .success rW ∧
    settle acceptAll acceptAll kpW 1000 (some invW) (some wpW)
        (settle acceptAll acceptAll kpW 1000 (some invW) (some wpW) stW).state
      = ⟨.replay, (settle acceptAll acceptAll kpW 1000 (some invW) (some wpW) stW).state⟩ :=
  ⟨by decide, rfl,
   (c2_exactly_once acceptAll acceptAll acceptAll acceptAll kpW 1000 1000 invW wpW wpW stW
      rW (by decide) rfl).2.1 (by decide)⟩

/-- C4: a receipt produced by a successful `settle`, verified unmodified
while still fresh, passes: its gateway signature verifies against the
embedded `gatewayPubkey`, and for every ledger state the outcome is
success — the `replayProtected` flag (the `seenNonce` value) does not gate
the result. -/
theorem c4_receipt_roundtrip
    (verifySolana verifyEvm : String → Option String → String → Bool)
    (kp : Keypair) (now1 now2 : Int) (invoice : Invoice) (walletProof : WalletProof)
    (st : ServerState) (r : Receipt)
    (hsucc : (settle verifySolana verifyEvm kp now1 (some invoice) (some walletProof) st).result
               = .success r)
    (hfresh : now2 - r.ts ≤ r.ttl) :
    verifyGateway (messageFromReceipt r) r.sig r.gatewayPubkey = true ∧
    ∀ m : NonceLedger, verifyReceipt m now2 (some r) = .verified (seenNonce m now2 r.nonce) := by
  obtain ⟨_, _, _, hr, _⟩ := settle_success_inv _ _ _ _ _ _ _ _ hsucc
  subst hr
  have hvg : verifyGateway (messageFromReceipt (settledReceipt kp invoice walletProof))
      (settledReceipt kp invoice walletProof).sig
      (settledReceipt kp invoice walletProof).gatewayPubkey = true := by
    show verifyGateway (messageFromInvoice invoice)
        ⟨messageFromInvoice invoice, kp.publicKey⟩ kp.publicKey = true
    simp [verifyGateway]
  refine ⟨hvg, fun m => verifyReceipt_ok m now2 _ ?_ hvg⟩
  show isFresh now2 invoice.ts invoice.ttl = true
  simp only [isFresh, decide_eq_true_eq]
  exact hfresh

/-- C4 witness: the fixture receipt verifies at time 1050 against an
empty ledger (so the advisory flag is `false`), and its signature checks. -/
theorem c4_receipt_roundtrip_witness :
    (settle acceptAll acceptAll kpW 1000 (some invW) (some wpW) stW).result = .success rW ∧
    (1050 : Int) - rW.ts ≤ rW.ttl ∧
    verifyReceipt (fun _ => none) 1050 (some rW) = .verified false :=
  ⟨rfl, by decide,
   (c4_receipt_roundtrip acceptAll acceptAll kpW 1000 1050 invW wpW stW rW rfl
      (by decide)).2 (fun _ => none)⟩

/-- C10: `settle` never checks that the submitted invoice came from the
gateway's issue route — any caller-fabricated invoice that is fresh, whose
nonce is unseen, and whose canonical message the dispatched scheme
verifier accepts, settles successfully, and the receipt copies exactly the
caller-chosen `feature`, `amount`, `unit`, `ttl`, `nonce`, `merkleId`,
`ts`, with `payer` the proof's account. -/
theorem c10_no_provenance_check
    (verifySolana verifyEvm : String → Option String → String → Bool)
    (kp : Keypair) (now : Int) (invoice : Invoice) (walletProof : WalletProof)
    (st : ServerState)
    (hfresh : now - invoice.ts ≤ invoice.ttl)
    (hseen : seenNonce st.usedNonces now invoice.nonce = false)
    (hver : walletVerified verifySolana verifyEvm (messageFromInvoice invoice) walletProof
              = true) :
    ∃ r, settle verifySolana verifyEvm kp now (some invoice) (some walletProof) st
        = ⟨.success r,
           ⟨cleanupNonces (markNonce st.usedNonces invoice.nonce (invoice.ts + invoice.ttl)) now,
            rememberReceipt r st.receipts⟩⟩ ∧
      r.feature = invoice.feature ∧ r.amount = invoice.amount ∧ r.unit = invoice.unit ∧
      r.ttl = invoice.ttl ∧ r.nonce = invoice.nonce ∧ r.merkleId = invoice.merkleId ∧
      r.ts = invoice.ts ∧ r.payer = walletProof.account ∧ r.gatewayPubkey = kp.publicKey := by
  refine ⟨settledReceipt kp invoice walletProof, ?_, rfl, rfl, rfl, rfl, rfl, rfl, rfl, rfl, rfl⟩
  exact settle_success_eq _ _ _ _ _ _ _ (by simpa [isFresh] using hfresh) hseen hver

/-- C10 witness: the fabricated fixture invoice settles at time 1000 and
the receipt echoes its fields. -/
theorem c10_no_provenance_check_witness :
    ∃ r, settle acceptAll acceptAll kpW 1000 (some invW) (some wpW) stW
        = ⟨.success r,
           ⟨cleanupNonces (markNonce stW.usedNonces invW.nonce (invW.ts + invW.ttl)) 1000,
            rememberReceipt r stW.receipts⟩⟩ ∧
      r.feature = invW.feature ∧ r.amount = invW.amount ∧ r.unit = invW.unit ∧
      r.ttl = invW.ttl ∧ r.nonce = invW.nonce ∧ r.merkleId = invW.merkleId ∧
      r.ts = invW.ts ∧ r.payer = wpW.account ∧ r.gatewayPubkey = kpW.publicKey :=
  c10_no_provenance_check acceptAll acceptAll kpW 1000 invW wpW stW (by decide) rfl rfl

/-- C1 counterexample: the fixture settlement's receipt, with its `payer`
field changed to a different value, still passes `verifyReceipt` (outcome
`verified`, not `bad-sig`): `messageFromReceipt` does not read `payer`,
so the canonical message the gateway signed is unchanged. -/
theorem c1_counterexample :
    (settle acceptAll acceptAll kpW 1000 (some invW) (some wpW) stW).result = .success rW ∧
    rW.payer = "payerAccountB58" ∧
    verifyReceipt (fun _ => none) 1000 (some { rW with payer := "mallory" })
      = .verified false ∧
    VerifyOutcome.verified false ≠ VerifyOutcome.badSig :=
  ⟨rfl, rfl, rfl, by decide⟩

/-- C1 (amended): for every receipt produced by `settle`, the signed
canonical message binds `feature`, `amount`, `nonce` and `ts` — mutating
any of them (with the mutated receipt still fresh at verification time)
makes `verifyReceipt` fail with `bad-sig` — and mutating `gatewayPubkey`
to any other key also yields `bad-sig`, though because verification uses
the embedded key rather than because the key is part of the signed
message; the `payer` field, contrary to the claim, is NOT bound:
replacing it by any value leaves the outcome of `verifyReceipt`
unchanged. -/
theorem c1_receipt_field_binding
    (verifySolana verifyEvm : String → Option String → String → Bool)
    (kp : Keypair) (now1 : Int) (invoice : Invoice) (walletProof : WalletProof)
    (st : ServerState) (r : Receipt)
    (hsucc : (settle verifySolana verifyEvm kp now1 (some invoice) (some walletProof) st).result
               = .success r) :
    (∀ (payer2 : String) (m : NonceLedger) (now2 : Int),
        verifyReceipt m now2 (some { r with payer := payer2 })
          = verifyReceipt m now2 (some r)) ∧
    (∀ (gk2 : String) (m : NonceLedger) (now2 : Int), gk2 ≠ r.gatewayPubkey →
        now2 - r.ts ≤ r.ttl →
        verifyReceipt m now2 (some { r with gatewayPubkey := gk2 }) = .badSig) ∧
    (∀ (f2 : String) (m : NonceLedger) (now2 : Int), f2 ≠ r.feature →
        now2 - r.ts ≤ r.ttl →
        verifyReceipt m now2 (some { r with feature := f2 }) = .badSig) ∧
    (∀ (a2 : String) (m : NonceLedger) (now2 : Int), a2 ≠ r.amount →
        now2 - r.ts ≤ r.ttl →
        verifyReceipt m now2 (some { r with amount := a2 }) = .badSig) ∧
    (∀ (n2 : String) (m : NonceLedger) (now2 : Int), n2 ≠ r.nonce →
        now2 - r.ts ≤ r.ttl →
        verifyReceipt m now2 (some { r with nonce := n2 }) = .badSig) ∧
    (∀ (ts2 : Int) (m : NonceLedger) (now2 : Int), ts2 ≠ r.ts →
        now2 - ts2 ≤ r.ttl →
        verifyReceipt m now2 (some { r with ts := ts2 }) = .badSig) := by
  obtain ⟨_, _, _, hr, _⟩ := settle_success_inv _ _ _ _ _ _ _ _ hsucc
  subst hr
  refine ⟨fun payer2 m now2 => rfl, ?_, ?_, ?_, ?_, ?_⟩
  · intro gk2 m now2 hne hf
    refine verifyReceipt_badSig m now2 _ ?_ (verifyGateway_key_ne _ _ _ ?_)
    · show isFresh now2 invoice.ts invoice.ttl = true
      simp only [isFresh, decide_eq_true_eq]
      exact hf
    · show kp.publicKey ≠ gk2
      exact fun h => hne h.symm
  · intro f2 m now2 hne hf
    refine verifyReceipt_badSig m now2 _ ?_ (verifyGateway_msg_ne _ _ _ ?_)
    · show isFresh now2 invoice.ts invoice.ttl = true
      simp only [isFresh, decide_eq_true_eq]
      exact hf
    · show (invoice.feature ++ "|" ++ invoice.amount ++ "|" ++ invoice.unit ++ "|"
          ++ invoice.nonce ++ "|" ++ invoice.merkleId ++ "|" ++ toString invoice.ts : String)
        ≠ f2 ++ "|" ++ invoice.amount ++ "|" ++ invoice.unit ++ "|"
          ++ invoice.nonce ++ "|" ++ invoice.merkleId ++ "|" ++ toString invoice.ts
      intro hEq
      exact hne (join6_feature_inj hEq.symm)
  · intro a2 m now2 hne hf
    refine verifyReceipt_badSig m now2 _ ?_ (verifyGateway_msg_ne _ _ _ ?_)
    · show isFresh now2 invoice.ts invoice.ttl = true
      simp only [isFresh, decide_eq_true_eq]
      exact hf
    · show (invoice.feature ++ "|" ++ invoice.amount ++ "|" ++ invoice.unit ++ "|"
          ++ invoice.nonce ++ "|" ++ invoice.merkleId ++ "|" ++ toString invoice.ts : String)
        ≠ invoice.feature ++ "|" ++ a2 ++ "|" ++ invoice.unit ++ "|"
          ++ invoice.nonce ++ "|" ++ invoice.merkleId ++ "|" ++ toString invoice.ts
      intro hEq
      exact hne (join6_amount_inj hEq.symm)
  · intro n2 m now2 hne hf
    refine verifyReceipt_badSig m now2 _ ?_ (verifyGateway_msg_ne _ _ _ ?_)
    · show isFresh now2 invoice.ts invoice.ttl = true
      simp only [isFresh, decide_eq_true_eq]
      exact hf
    · show (invoice.feature ++ "|" ++ invoice.amount ++ "|" ++ invoice.unit ++ "|"
          ++ invoice.nonce ++ "|" ++ invoice.merkleId ++ "|" ++ toString invoice.ts : String)
        ≠ invoice.feature ++ "|" ++ invoice.amount ++ "|" ++ invoice.unit ++ "|"
          ++ n2 ++ "|" ++ invoice.merkleId ++ "|" ++ toString invoice.ts
      intro hEq
      exact hne (join6_nonce_inj hEq.symm)
  · intro ts2 m now2 hne hf
    refine verifyReceipt_badSig m now2 _ ?_ (verifyGateway_msg_ne _ _ _ ?_)
    · show isFresh now2 ts2 invoice.ttl = true
      simp only [isFresh, decide_eq_true_eq]
      exact hf
    · show (invoice.feature ++ "|" ++ invoice.amount ++ "|" ++ invoice.unit ++ "|"
          ++ invoice.nonce ++ "|" ++ invoice.merkleId ++ "|" ++ toString invoice.ts : String)
        ≠ invoice.feature ++ "|" ++ invoice.amount ++ "|" ++ invoice.unit ++ "|"
          ++ invoice.nonce ++ "|" ++ invoice.merkleId ++ "|" ++ toString ts2
      intro hEq
      exact hne (intToString_injective (join6_ts_inj hEq.symm))

/-- C1 witness: on the fixture receipt, a payer mutation is invisible to
`verifyReceipt`, while feature and ts mutations yield `bad-sig`. -/
theorem c1_receipt_field_binding_witness :
    (verifyReceipt (fun _ => none) 1000 (some { rW with payer := "mallory" })
      = verifyReceipt (fun _ => none) 1000 (some rW)) ∧
    verifyReceipt (fun _ => none) 1000 (some { rW with feature := "api.other" })
      = .badSig ∧
    verifyReceipt (fun _ => none) 1000 (some { rW with ts := 1001 }) = .badSig :=
  ⟨(c1_receipt_field_binding acceptAll acceptAll kpW 1000 invW wpW stW rW rfl).1
      "mallory" (fun _ => none) 1000,
   (c1_receipt_field_binding acceptAll acceptAll kpW 1000 invW wpW stW rW rfl).2.2.1
      "api.other" (fun _ => none) 1000 (by decide) (by decide),
   (c1_receipt_field_binding acceptAll acceptAll kpW 1000 invW wpW stW rW rfl).2.2.2.2.2
      1001 (fun _ => none) 1000 (by decide) (by decide)⟩

/-- C7: proof verification is total — whatever the external decoding and
crypto primitives do (including throwing on undecodable base58 accounts,
malformed base64/hex signatures, garbage bytes or missing fields), both
verifiers return a boolean and never propagate an exception; and a decode
failure yields `false`, indistinguishable from an invalid proof. -/
theorem c7_verifiers_never_throw
    (bs58Decode base64Decode : Option String → Except Unit (List Nat))
    (naclVerify : List Nat → List Nat → List Nat → Except Unit Bool)
    (strBytes : String → List Nat)
    (ethersVerifyMessage : String → Option String → Except Unit String)
    (getBytes : String → Except Unit (List Nat))
    (ethersVerifyMessageBytes : List Nat → Option String → Except Unit String)
    (toLower : String → String)
    (message : String) (signatureBase64 signatureHex account : Option String) :
    (∃ b, verifySolanaMessage bs58Decode base64Decode naclVerify strBytes
        message signatureBase64 account = .ok b) ∧
    (∃ b, verifyEvmMessage ethersVerifyMessage getBytes ethersVerifyMessageBytes toLower
        message signatureHex account = .ok b) ∧
    ((bs58Decode account = .error () ∨ base64Decode signatureBase64 = .error ()) →
      verifySolanaMessage bs58Decode base64Decode naclVerify strBytes
        message signatureBase64 account = .ok false) ∧
    (account = none →
      verifyEvmMessage ethersVerifyMessage getBytes ethersVerifyMessageBytes toLower
        message signatureHex account = .ok false) := by
  refine ⟨?_, ?_, ?_, ?_⟩
  · cases hx : (do
        let pub ← bs58Decode account
        let sig ← base64Decode signatureBase64
        naclVerify (strBytes message) sig pub : Except Unit Bool) with
    | ok b => exact ⟨b, by simp only [verifySolanaMessage, hx]⟩
    | error e => exact ⟨false, by simp only [verifySolanaMessage, hx]⟩
  · cases h1 : (do
        let recovered1 ← ethersVerifyMessage message signatureHex
        let acct ← jsToLower toLower account
        pure (toLower recovered1 == acct) : Except Unit Bool) with
    | ok b1 =>
      cases b1 with
      | true => exact ⟨true, by simp only [verifyEvmMessage, h1]⟩
      | false =>
        cases h2 : (do
            let bytes ← getBytes message
            let recovered2 ← ethersVerifyMessageBytes bytes signatureHex
            let acct ← jsToLower toLower account
            pure (toLower recovered2 == acct) : Except Unit Bool) with
        | ok b2 => exact ⟨b2, by simp only [verifyEvmMessage, h1, h2]⟩
        | error e => exact ⟨false, by simp only [verifyEvmMessage, h1, h2]⟩
    | error e =>
      cases h2 : (do
          let bytes ← getBytes message
          let recovered2 ← ethersVerifyMessageBytes bytes signatureHex
          let acct ← jsToLower toLower account
          pure (toLower recovered2 == acct) : Except Unit Bool) with
      | ok b2 => exact ⟨b2, by simp only [verifyEvmMessage, h1, h2]⟩
      | error e2 => exact ⟨false, by simp only [verifyEvmMessage, h1, h2]⟩
  · intro h
    have hbody : (do
        let pub ← bs58Decode account
        let sig ← base64Decode signatureBase64
        naclVerify (strBytes message) sig pub : Except Unit Bool) = .error () := by
      rcases h with h | h
      · simp only [h]
        rfl
      · cases ha : bs58Decode account with
        | error e => rfl
        | ok pub =>
          simp only [h]
          rfl
    simp only [verifySolanaMessage, hbody]
  · intro ha
    subst ha
    have h1 : (do
        let recovered1 ← ethersVerifyMessage message signatureHex
        let acct ← jsToLower toLower (none : Option String)
        pure (toLower recovered1 == acct) : Except Unit Bool) = .error () := by
      cases he : ethersVerifyMessage message signatureHex with
      | error e => rfl
      | ok r1 => rfl
    have h2 : (do
        let bytes ← getBytes message
        let recovered2 ← ethersVerifyMessageBytes bytes signatureHex
        let acct ← jsToLower toLower (none : Option String)
        pure (toLower recovered2 == acct) : Except Unit Bool) = .error () := by
      cases hg : getBytes message with
      | error e => rfl
      | ok bytes =>
        show ethersVerifyMessageBytes bytes signatureHex >>= _ = Except.error ()
        cases hv : ethersVerifyMessageBytes bytes signatureHex with
        | error e => rfl
        | ok r2 => rfl
    simp only [verifyEvmMessage, h1, h2]

/-- C7 witness: with concrete externals that throw on everything, both
verifiers return `false` (wrapped in `.ok`, i.e. no exception escapes). -/
theorem c7_verifiers_never_throw_witness :
    verifySolanaMessage (fun _ => .error ()) (fun _ => .error ())
        (fun _ _ _ => .error ()) (fun _ => []) "msg" none none = .ok false ∧
    verifyEvmMessage (fun _ _ => .error ()) (fun _ => .error ())
        (fun _ _ => .error ()) (fun s => s) "msg" none none = .ok false :=
  ⟨(c7_verifiers_never_throw (fun _ => .error ()) (fun _ => .error ())
      (fun _ _ _ => .error ()) (fun _ => []) (fun _ _ => .error ()) (fun _ => .error ())
      (fun _ _ => .error ()) (fun s => s) "msg" none none none).2.2.1 (Or.inl rfl),
   (c7_verifiers_never_throw (fun _ => .error ()) (fun _ => .error ())
      (fun _ _ _ => .error ()) (fun _ => []) (fun _ _ => .error ()) (fun _ => .error ())
      (fun _ _ => .error ()) (fun s => s) "msg" none none none).2.2.2 rfl⟩

/-- C8: eviction is observationally transparent — for every ledger, time
and nonce, `seenNonce` answers the same immediately before and after
`cleanupNonces`, and cleanup keeps exactly the entries whose expiry has
not passed. -/
theorem c8_eviction_transparent (m : NonceLedger) (now : Int) (nonce : String) :
    seenNonce (cleanupNonces m now) now nonce = seenNonce m now nonce ∧
    (∀ e : Int, cleanupNonces m now nonce = some e ↔ m nonce = some e ∧ ¬ e < now) ∧
    (0 < now →
      (seenNonce m now nonce = true ↔ ∃ e, m nonce = some e ∧ e ≥ now)) := by
  refine ⟨?_, ?_, ?_⟩
  · cases hm : m nonce with
    | none => simp [seenNonce, cleanupNonces, hm]
    | some exp =>
      by_cases he : exp < now
      · have hge : ¬ exp ≥ now := by omega
        simp [seenNonce, cleanupNonces, hm, he, hge]
      · simp [seenNonce, cleanupNonces, hm, he]
  · intro e
    cases hm : m nonce with
    | none => simp [cleanupNonces, hm]
    | some exp =>
      by_cases he : exp < now
      · simp only [cleanupNonces, hm, if_pos he]
        constructor
        · intro hcontra
          exact absurd hcontra (by simp)
        · rintro ⟨hsome, hnot⟩
          cases hsome
          exact absurd he hnot
      · simp only [cleanupNonces, hm, if_neg he]
        constructor
        · intro hsome
          cases hsome
          exact ⟨rfl, he⟩
        · rintro ⟨hsome, _⟩
          exact hsome
  · intro hpos
    cases hm : m nonce with
    | none => simp [seenNonce, hm]
    | some exp =>
      simp only [seenNonce, hm, Bool.and_eq_true, bne_iff_ne, ne_eq, decide_eq_true_eq,
        Option.some.injEq]
      constructor
      · rintro ⟨_, hge⟩
        exact ⟨exp, rfl, hge⟩
      · rintro ⟨e, rfl, hge⟩
        exact ⟨by omega, hge⟩

/-- C8 witness: a ledger holding one live and one expired entry at a
positive clock. -/
theorem c8_eviction_transparent_witness :
    (0 : Int) < 1000 ∧
    (seenNonce (fun k => if k = "nonce1" then some 1090 else none) 1000 "nonce1" = true
      ↔ ∃ e, (fun k => if k = "nonce1" then some (1090 : Int) else none) "nonce1" = some e
          ∧ e ≥ 1000) :=
  ⟨by decide,
   (c8_eviction_transparent (fun k => if k = "nonce1" then some 1090 else none)
      1000 "nonce1").2.2 (by decide)⟩

/-- C9: archive invariant — from any archive within the 500-receipt
bound, any sequence of `rememberReceipt` insertions stays within the
bound, every insertion puts the new receipt at the front, and an
insertion into a full archive drops exactly the oldest (last) entry. -/
theorem c9_archive_invariant (l : List Receipt) (h : l.length ≤ 500) (rs : List Receipt) :
    (rs.foldl (fun acc r => rememberReceipt r acc) l).length ≤ 500 ∧
    (∀ (r : Receipt) (acc : List Receipt), (rememberReceipt r acc).head? = some r) ∧
    (∀ (r : Receipt) (acc : List Receipt), acc.length = 500 →
        rememberReceipt r acc = r :: acc.dropLast) := by
  refine ⟨?_, ?_, ?_⟩
  · induction rs generalizing l with
    | nil => simpa using h
    | cons r rs ih =>
      simp only [List.foldl_cons]
      apply ih
      simp only [rememberReceipt]
      split
      · simp only [List.length_dropLast, List.length_cons]
        omega
      · next hle =>
        simp only [List.length_cons] at hle ⊢
        omega
  · intro r acc
    simp only [rememberReceipt]
    split
    · next hgt =>
      cases acc with
      | nil => simp at hgt
      | cons a as => rfl
    · rfl
  · intro r acc hacc
    simp only [rememberReceipt]
    split
    · next hgt =>
      cases acc with
      | nil => simp at hacc
      | cons a as => rfl
    · next hle =>
      exact absurd (by simp [hacc]) hle

/-- C9 witness: inserting the fixture receipt into an empty archive stays
within the bound. -/
theorem c9_archive_invariant_witness :
    (([rW].foldl (fun acc r => rememberReceipt r acc) ([] : List Receipt)).length ≤ 500) ∧
    (rememberReceipt rW []).head? = some rW :=
  ⟨(c9_archive_invariant [] (by decide) [rW]).1,
   (c9_archive_invariant [] (by decide) [rW]).2.1 rW []⟩

end Quantum402
